import Mathlib

/-!
Verification of the VocalNets `AcousticCameraValidation` scripts.

The two Python source files are embedded shallowly:

* `stimuliSynth.py` — `generate_exponential_sweep` and
  `generate_bandlimited_noise`.  Sample values are modelled over `ℝ`
  (for the sine sweep) and over `ℚ` (for the noise pipeline, whose own
  arithmetic is rational-closed once the external filter is a parameter).
  Integer-producing float computations (`int(...)` casts) are modelled
  exactly over `ℚ`.
* `acousticVisualization.py` — `select_random_files` and the `__main__`
  visualization loop.  The file system, `random.sample`'s choice, and
  the drawing calls are modelled as explicit inputs / event lists.
-/

/-- Python's `int(q)` applied to a real quantity: truncation toward zero. -/
def pyInt (q : ℚ) : ℤ := if 0 ≤ q then ⌊q⌋ else ⌈q⌉

/-- Number of samples of the sweep, `int(samplerate*duration)` from
`np.linspace(0, duration, int(samplerate*duration), endpoint=False)`
(line 36 of `stimuliSynth.py`).  Clamped to `ℕ`; all claims use
nonnegative products, where `pyInt` is the floor. -/
def numSamples (duration samplerate : ℚ) : ℕ := (pyInt (samplerate * duration)).toNat

/-- Fade length in samples, `fade_samples = int(fade_time * samplerate)`
(line 47 of `stimuliSynth.py`, line 86 for the noise generator). -/
def fadeSamples (fadeTime samplerate : ℚ) : ℕ := (pyInt (fadeTime * samplerate)).toNat

/-- Value number `i` of `np.linspace(a, b, n)` (endpoint included):
`a + i*(b-a)/(n-1)` for `n ≥ 2`, and the single value `a` for `n = 1`
(the `n = 0` case yields an empty vector and is never indexed). -/
def linspaceVal {α : Type} [LinearOrderedField α] (a b : α) (n i : ℕ) : α :=
  if n ≤ 1 then a else a + (i : α) * (b - a) / ((n : α) - 1)

/-- Gain applied at index `i` of a length-`len` buffer by the in-place fade
`buf[:fs] *= np.linspace(0,1,fs); buf[-fs:] *= np.linspace(1,0,fs)`
(lines 49-54 / 88-91 of `stimuliSynth.py`): the fade-in ramp on the first
`fs` indices, the fade-out ramp on the last `fs`, and `1` elsewhere. -/
def fadeGain {α : Type} [LinearOrderedField α] (fs len i : ℕ) : α :=
  if i < fs then linspaceVal 0 1 fs i
  else if len - fs ≤ i then linspaceVal 1 0 fs (i - (len - fs))
  else 1

/-- The fade block shared by both generators (lines 47-54 and 86-91 of
`stimuliSynth.py`): the ramps are applied only when
`fade_samples > 0 and 2*fade_samples < len(buf)`. -/
def applyFade {α : Type} [LinearOrderedField α] (xs : List α) (fs : ℕ) : List α :=
  if 0 < fs ∧ 2 * fs < xs.length then
    xs.mapIdx fun i x => x * fadeGain fs xs.length i
  else xs

/-- Phase of the exponential sweep (lines 40-42 of `stimuliSynth.py`):
`2π * (duration*f_start/ln(f_end/f_start)) * (exp(ln(f_end/f_start)*t/duration) - 1)`. -/
noncomputable def sweepPhase (fStart fEnd duration t : ℝ) : ℝ :=
  2 * Real.pi * (duration * fStart / Real.log (fEnd / fStart)) *
    (Real.exp (Real.log (fEnd / fStart) * t / duration) - 1)

/-- The pre-fade sweep `np.sin(phase)` sampled on
`t = np.linspace(0, duration, N, endpoint=False)`, i.e. `t n = n*duration/N`
(lines 36-44 of `stimuliSynth.py`). -/
noncomputable def rawSweep (fStart fEnd duration : ℝ) (N : ℕ) : List ℝ :=
  (List.range N).map fun n : ℕ =>
    Real.sin (sweepPhase fStart fEnd duration ((n : ℝ) * duration / (N : ℝ)))

/-- `generate_exponential_sweep` (lines 22-56 of `stimuliSynth.py`):
the sampled sine of the exponential phase with the fade block applied;
no validation and no normalization are performed. -/
noncomputable def generate_exponential_sweep
    (fStart fEnd : ℝ) (duration samplerate fadeTime : ℚ) : List ℝ :=
  applyFade (rawSweep fStart fEnd (duration : ℝ) (numSamples duration samplerate))
    (fadeSamples fadeTime samplerate)

/-- `np.max(np.abs(xs))` (line 94 of `stimuliSynth.py`), with value `0` on
the empty buffer (NumPy would raise there; no claim touches that case). -/
def peak (xs : List ℚ) : ℚ := xs.foldr (fun x m => max |x| m) 0

/-- The normalization step of `generate_bandlimited_noise` (lines 93-96 of
`stimuliSynth.py`): `if peak > 0: out = 0.9 * (buf / peak)`.  (Named
`peakNormalize` because Mathlib already owns the name `normalize`.) -/
def peakNormalize (xs : List ℚ) : List ℚ :=
  if 0 < peak xs then xs.map fun x => 9 / 10 * (x / peak xs) else xs

/-- `generate_bandlimited_noise` (lines 59-98 of `stimuliSynth.py`).  The
white-noise draw `np.random.normal(0, 1, N)` and the SciPy Butterworth
filter `sosfilt(butter(...), ·)` are external-library effects, passed in
as the explicit parameters `noise` (the drawn samples) and `sosfilt`
(the filter as a function on buffers); the repository's own code is the
fade block followed by peak-normalization. -/
def generate_bandlimited_noise
    (sosfilt : List ℚ → List ℚ) (noise : List ℚ) (fadeTime samplerate : ℚ) : List ℚ :=
  peakNormalize (applyFade (sosfilt noise) (fadeSamples fadeTime samplerate))

/-- Outcome of `select_random_files` (lines 28-39 of
`acousticVisualization.py`): either the list of chosen file names or the
message of the `ValueError` that the call raises. -/
def raisesError : Except String (List String) → Bool
  | Except.error _ => true
  | Except.ok _ => false

/-- `select_random_files(folder_path, number_of_files)` (lines 28-39 of
`acousticVisualization.py`).  The folder is modelled as its directory
listing `entries` (name, `os.path.isfile` flag); `random.sample`'s
uniform choice of `k` distinct elements is modelled by the `shuffle`
parameter (a rearrangement of the population, of which the first `k`
elements are taken), and its own guard `0 <= k <= n` from CPython's
`random.sample` is kept: violating it raises a `ValueError` too. -/
def select_random_files (entries : List (String × Bool))
    (shuffle : List String → List String) (number_of_files : ℤ) :
    Except String (List String) :=
  let files := (entries.filter fun e => e.2).map fun e => e.1
  if (files.length : ℤ) < number_of_files then
    Except.error "Requested number of files exceeds the number of files in the folder."
  else if 0 ≤ number_of_files ∧ number_of_files ≤ (files.length : ℤ) then
    Except.ok ((shuffle files).take number_of_files.toNat)
  else
    Except.error "Sample larger than population or is negative"

/-- Side effects performed by the active `__main__` loop of
`acousticVisualization.py` for one loaded file (lines 85-96): the
plotting calls, plus a constructor for lines printed to stdout (used by
no active statement; the zero-crossing print at line 141 is commented
out). -/
inductive VisEvent : Type
  | pltFigure
  | specshow
  | pltTitle
  | colorbar
  | tightLayout
  | pltShow
  | printLine (s : String)
deriving DecidableEq

/-- The statements executed for one file by the active part of the
`__main__` loop of `acousticVisualization.py` (lines 85-96): figure,
spectrogram display, title, colorbar, layout, show.  No statement prints
to stdout, so the buffer contents do not influence the event list. -/
def visualizeFile (_y : List ℚ) : List VisEvent :=
  [VisEvent.pltFigure, VisEvent.specshow, VisEvent.pltTitle,
   VisEvent.colorbar, VisEvent.tightLayout, VisEvent.pltShow]

/-- The whole active `__main__` loop of `acousticVisualization.py`
(lines 58-96), over the list of loaded sample buffers. -/
def visualizeAll (ys : List (List ℚ)) : List VisEvent := ys.flatMap visualizeFile

/-- The lines that a list of events writes to standard output. -/
def stdoutLines (evs : List VisEvent) : List String :=
  evs.filterMap fun e =>
    match e with
    | VisEvent.printLine s => some s
    | _ => none

theorem applyFade_of_not {α : Type} [LinearOrderedField α] (xs : List α) (fs : ℕ)
    (h : ¬ (0 < fs ∧ 2 * fs < xs.length)) : applyFade xs fs = xs := by
  unfold applyFade
  rw [if_neg h]

theorem applyFade_length {α : Type} [LinearOrderedField α] (xs : List α) (fs : ℕ) :
    (applyFade xs fs).length = xs.length := by
  unfold applyFade
  split
  · simp
  · rfl

theorem applyFade_getElem_pos {α : Type} [LinearOrderedField α] (xs : List α) (fs : ℕ)
    (h : 0 < fs ∧ 2 * fs < xs.length) (i : ℕ) :
    (applyFade xs fs)[i]? = (xs[i]?).map fun x => x * fadeGain fs xs.length i := by
  unfold applyFade
  rw [if_pos h]
  simp

theorem fadeGain_head {α : Type} [LinearOrderedField α] (fs len : ℕ) (h : 0 < fs) :
    fadeGain fs len 0 = (0 : α) := by
  unfold fadeGain linspaceVal
  rw [if_pos h]
  split
  · rfl
  · simp

theorem fadeGain_last {α : Type} [LinearOrderedField α] (fs len : ℕ)
    (h1 : 2 ≤ fs) (h2 : 2 * fs < len) :
    fadeGain fs len (len - 1) = (0 : α) := by
  unfold fadeGain
  rw [if_neg (by omega), if_pos (by omega)]
  have hj : len - 1 - (len - fs) = fs - 1 := by omega
  rw [hj]
  unfold linspaceVal
  rw [if_neg (by omega)]
  have hc : ((fs - 1 : ℕ) : α) = (fs : α) - 1 := by
    have h1 : (1 : ℕ) ≤ fs := by omega
    push_cast [h1]
    ring
  have hfs : ((fs : α) - 1) ≠ 0 := by
    have h2' : (2 : α) ≤ (fs : α) := by exact_mod_cast h1
    intro heq
    have : (fs : α) = 1 := by linarith
    linarith
  rw [hc]
  have hmul : ((fs : α) - 1) * (0 - 1) = -((fs : α) - 1) := by ring
  rw [hmul, neg_div, div_self hfs]
  ring

theorem fadeGain_mid {α : Type} [LinearOrderedField α] (fs len i : ℕ)
    (h1 : fs ≤ i) (h2 : i < len - fs) :
    fadeGain fs len i = (1 : α) := by
  unfold fadeGain
  rw [if_neg (by omega), if_neg (by omega)]

theorem fadeGain_bounds {α : Type} [LinearOrderedField α] (fs len i : ℕ) (hi : i < len) :
    0 ≤ (fadeGain fs len i : α) ∧ (fadeGain fs len i : α) ≤ 1 := by
  unfold fadeGain linspaceVal
  split
  · rename_i hif
    split
    · norm_num
    · rename_i hfs1
      have hfs2 : 2 ≤ fs := by omega
      have hden : (0 : α) < (fs : α) - 1 := by
        have : (2 : α) ≤ (fs : α) := by exact_mod_cast hfs2
        linarith
      have hnum : (0 : α) ≤ (i : α) := by positivity
      constructor
      · have : (0 : α) ≤ (i : α) * (1 - 0) / ((fs : α) - 1) := by positivity
        linarith
      · have hle : (i : α) ≤ (fs : α) - 1 := by
          have : (i : ℕ) ≤ fs - 1 := by omega
          have hcast : ((i : ℕ) : α) ≤ ((fs - 1 : ℕ) : α) := by exact_mod_cast this
          have hc : ((fs - 1 : ℕ) : α) = (fs : α) - 1 := by
            have h1 : (1 : ℕ) ≤ fs := by omega
            push_cast [h1]
            ring
          rw [hc] at hcast
          exact hcast
        have := (div_le_one hden).mpr (by linarith : (i : α) * (1 - 0) ≤ (fs : α) - 1)
        linarith
  · rename_i hif
    split
    · rename_i hout
      split
      · norm_num
      · rename_i hfs1
        have hfsle : fs ≤ i := by omega
        have hlen : fs < len := by omega
        have hfs2 : 2 ≤ fs := by omega
        have hden : (0 : α) < (fs : α) - 1 := by
          have : (2 : α) ≤ (fs : α) := by exact_mod_cast hfs2
          linarith
        have hjle : i - (len - fs) ≤ fs - 1 := by omega
        have hjcast : ((i - (len - fs) : ℕ) : α) ≤ (fs : α) - 1 := by
          have hcast : ((i - (len - fs) : ℕ) : α) ≤ ((fs - 1 : ℕ) : α) := by
            exact_mod_cast hjle
          have hc : ((fs - 1 : ℕ) : α) = (fs : α) - 1 := by
            have h1 : (1 : ℕ) ≤ fs := by omega
            push_cast [h1]
            ring
          rw [hc] at hcast
          exact hcast
        have hjnn : (0 : α) ≤ ((i - (len - fs) : ℕ) : α) := by positivity
        have hfrac : ((i - (len - fs) : ℕ) : α) * (0 - 1) / ((fs : α) - 1) =
            -(((i - (len - fs) : ℕ) : α) / ((fs : α) - 1)) := by ring
        rw [hfrac]
        have h01 : (0 : α) ≤ ((i - (len - fs) : ℕ) : α) / ((fs : α) - 1) := by positivity
        have h02 : ((i - (len - fs) : ℕ) : α) / ((fs : α) - 1) ≤ 1 :=
          (div_le_one hden).mpr hjcast
        constructor
        · linarith
        · linarith
    · norm_num

theorem applyFade_first {α : Type} [LinearOrderedField α] (xs : List α) (fs : ℕ)
    (h1 : 0 < fs) (h2 : 2 * fs < xs.length) :
    (applyFade xs fs)[0]? = some 0 := by
  rw [applyFade_getElem_pos xs fs ⟨h1, h2⟩ 0]
  have hx : 0 < xs.length := by omega
  rw [List.getElem?_eq_getElem hx]
  simp [fadeGain_head fs xs.length h1]

theorem applyFade_last {α : Type} [LinearOrderedField α] (xs : List α) (fs : ℕ)
    (h1 : 2 ≤ fs) (h2 : 2 * fs < xs.length) :
    (applyFade xs fs)[xs.length - 1]? = some 0 := by
  rw [applyFade_getElem_pos xs fs ⟨by omega, h2⟩ (xs.length - 1)]
  have hx : xs.length - 1 < xs.length := by omega
  rw [List.getElem?_eq_getElem hx]
  simp [fadeGain_last fs xs.length h1 h2]

theorem applyFade_at_fs {α : Type} [LinearOrderedField α] (xs : List α) (fs : ℕ)
    (h1 : 0 < fs) (h2 : 2 * fs < xs.length) :
    (applyFade xs fs)[fs]? = xs[fs]? := by
  rw [applyFade_getElem_pos xs fs ⟨h1, h2⟩ fs]
  have hx : fs < xs.length := by omega
  rw [List.getElem?_eq_getElem hx]
  simp [fadeGain_mid fs xs.length fs le_rfl (by omega)]

theorem rawSweep_length (fStart fEnd duration : ℝ) (N : ℕ) :
    (rawSweep fStart fEnd duration N).length = N := by
  simp [rawSweep]

theorem rawSweep_getElem (fStart fEnd duration : ℝ) (N n : ℕ) (hn : n < N) :
    (rawSweep fStart fEnd duration N)[n]? =
      some (Real.sin (sweepPhase fStart fEnd duration ((n : ℝ) * duration / (N : ℝ)))) := by
  unfold rawSweep
  rw [List.getElem?_map, List.getElem?_range hn]
  rfl

theorem generate_exponential_sweep_length (fStart fEnd : ℝ) (duration samplerate fadeTime : ℚ) :
    (generate_exponential_sweep fStart fEnd duration samplerate fadeTime).length =
      numSamples duration samplerate := by
  unfold generate_exponential_sweep
  rw [applyFade_length, rawSweep_length]

theorem peak_cons (x : ℚ) (xs : List ℚ) : peak (x :: xs) = max |x| (peak xs) := rfl

theorem peak_nonneg (xs : List ℚ) : 0 ≤ peak xs := by
  induction xs with
  | nil => simp [peak]
  | cons x xs ih =>
      rw [peak_cons]
      exact le_max_of_le_right ih

theorem peak_map_mul (c : ℚ) (xs : List ℚ) :
    peak (xs.map fun x => c * x) = |c| * peak xs := by
  induction xs with
  | nil => simp [peak]
  | cons x xs ih =>
      rw [List.map_cons, peak_cons, peak_cons, ih, abs_mul]
      rw [mul_max_of_nonneg _ _ (abs_nonneg c)]

theorem peakNormalize_peak_pos (xs : List ℚ) (h : 0 < peak xs) :
    peak (peakNormalize xs) = 9 / 10 := by
  unfold peakNormalize
  rw [if_pos h]
  have hfun : (fun x : ℚ => 9 / 10 * (x / peak xs)) = fun x : ℚ => 9 / 10 / peak xs * x := by
    funext x
    ring
  rw [hfun, peak_map_mul]
  have hp : peak xs ≠ 0 := ne_of_gt h
  have habs : |(9 : ℚ) / 10 / peak xs| = 9 / 10 / peak xs := by
    rw [abs_of_pos]
    positivity
  rw [habs]
  field_simp
  ring

/-- C1: for valid parameters (`0 < f_start < f_end`, positive duration and
samplerate) and a fade configuration under which no fade is applied, every
sample `n` of the buffer returned by `generate_exponential_sweep` equals
`sin(2π·K·(exp(L·t/duration) − 1))` with `K = duration·f_start/ln(f_end/f_start)`,
`L = ln(f_end/f_start)` and `t = n·duration/N`, `N` the buffer length. -/
theorem C1_sweep_samples (fStart fEnd : ℝ) (duration samplerate fadeTime : ℚ)
    (h1 : 0 < fStart) (h2 : fStart < fEnd) (h3 : 0 < duration) (h4 : 0 < samplerate)
    (hfade : fadeSamples fadeTime samplerate = 0 ∨
      numSamples duration samplerate ≤ 2 * fadeSamples fadeTime samplerate)
    (n : ℕ) (hn : n < numSamples duration samplerate) :
    (generate_exponential_sweep fStart fEnd duration samplerate fadeTime)[n]? =
      some (Real.sin (2 * Real.pi *
        ((duration : ℝ) * fStart / Real.log (fEnd / fStart)) *
        (Real.exp (Real.log (fEnd / fStart) *
          ((n : ℝ) * (duration : ℝ) / (numSamples duration samplerate : ℝ)) /
            (duration : ℝ)) - 1))) := by
  unfold generate_exponential_sweep
  rw [applyFade_of_not _ _ (by rw [rawSweep_length]; omega)]
  rw [rawSweep_getElem _ _ _ _ n hn]
  rfl

/-- Witness for `C1_sweep_samples`: the concrete call
`generate_exponential_sweep 1 2 1 2 0` (two samples, no fade). -/
theorem C1_sweep_samples_witness :
    (generate_exponential_sweep 1 2 1 2 0)[0]? =
      some (Real.sin (2 * Real.pi *
        (((1 : ℚ) : ℝ) * 1 / Real.log (2 / 1)) *
        (Real.exp (Real.log (2 / 1) *
          (((0 : ℕ) : ℝ) * ((1 : ℚ) : ℝ) / (numSamples 1 2 : ℝ)) /
            ((1 : ℚ) : ℝ)) - 1))) :=
  C1_sweep_samples 1 2 1 2 0 (by norm_num) (by norm_num) (by norm_num) (by norm_num)
    (Or.inl (by norm_num [fadeSamples, pyInt]))
    0 (by norm_num [numSamples, pyInt] <;> decide)

/-- C2 (counterexample): the claim says the buffer length is
`round(duration·samplerate)`; at `duration = 1/2`, `samplerate = 3` the code
produces `int(3·0.5) = 1` samples while `round(0.5·3) = 2`. -/
theorem C2_length_cex :
    ¬ ((generate_exponential_sweep 1 2 (1/2) 3 0).length =
        (round ((1/2 : ℚ) * 3)).toNat) := by
  rw [generate_exponential_sweep_length]
  have h1 : numSamples (1/2) 3 = 1 := by norm_num [numSamples, pyInt]
  have h2 : round ((1/2 : ℚ) * 3) = 2 := by norm_num [round_eq]
  rw [h1, h2]
  decide

/-- C2 (amended): the buffer length is `int(samplerate*duration)`
(truncation toward zero, not rounding to nearest); in particular the call
with `duration = 10.0` and `samplerate = 192000` yields 1,920,000 samples. -/
theorem C2_length_amended :
    (∀ (fStart fEnd : ℝ) (duration samplerate fadeTime : ℚ),
        (generate_exponential_sweep fStart fEnd duration samplerate fadeTime).length =
          (pyInt (samplerate * duration)).toNat)
    ∧ (generate_exponential_sweep 1000 30000 10 192000 (1/50)).length = 1920000 := by
  constructor
  · intro fS fE d sr ft
    rw [generate_exponential_sweep_length]
    rfl
  · rw [generate_exponential_sweep_length]
    norm_num [numSamples, pyInt] <;> decide

/-- C3 (counterexample): at `f_end == f_start` the generator does not raise:
it still returns a buffer, here one of length 4 (no guard exists in the code;
in NumPy the samples are NaN after the division by `log(1) = 0`, but the call
completes and a full-length buffer is handed back). -/
theorem C3_no_error_cex : (generate_exponential_sweep 1000 1000 1 4 0).length = 4 := by
  rw [generate_exponential_sweep_length]
  norm_num [numSamples, pyInt] <;> decide

/-- C3 (amended): `generate_exponential_sweep` performs no input validation:
for every `f_end ≤ f_start` it still returns a buffer of the usual length
`int(samplerate*duration)` instead of failing. -/
theorem C3_no_validation (fStart fEnd : ℝ) (duration samplerate fadeTime : ℚ)
    (h : fEnd ≤ fStart) :
    (generate_exponential_sweep fStart fEnd duration samplerate fadeTime).length =
      numSamples duration samplerate :=
  generate_exponential_sweep_length fStart fEnd duration samplerate fadeTime

/-- Witness for `C3_no_validation` at `f_end = f_start = 1000`. -/
theorem C3_no_validation_witness :
    (1000 : ℝ) ≤ 1000 ∧
      (generate_exponential_sweep 1000 1000 1 4 0).length = numSamples 1 4 :=
  ⟨le_refl 1000, C3_no_validation 1000 1000 1 4 0 (le_refl 1000)⟩

theorem rawSweep_bounded (fStart fEnd duration : ℝ) (N n : ℕ) (y : ℝ)
    (hy : (rawSweep fStart fEnd duration N)[n]? = some y) : -1 ≤ y ∧ y ≤ 1 := by
  by_cases hn : n < N
  · rw [rawSweep_getElem _ _ _ _ n hn] at hy
    have hval := Option.some.inj hy
    rw [← hval]
    exact ⟨Real.neg_one_le_sin _, Real.sin_le_one _⟩
  · rw [List.getElem?_eq_none (by rw [rawSweep_length]; omega)] at hy
    cases hy

/-- C7: for `0 < f_start < f_end` every sample of the buffer returned by
`generate_exponential_sweep` lies in `[-1, 1]` (the generator applies no
normalization: it returns the faded pure sine directly). -/
theorem C7_sweep_range (fStart fEnd : ℝ) (duration samplerate fadeTime : ℚ)
    (h1 : 0 < fStart) (h2 : fStart < fEnd) (n : ℕ) (x : ℝ)
    (hx : (generate_exponential_sweep fStart fEnd duration samplerate fadeTime)[n]? =
      some x) :
    -1 ≤ x ∧ x ≤ 1 := by
  unfold generate_exponential_sweep at hx
  by_cases hcond : 0 < fadeSamples fadeTime samplerate ∧
      2 * fadeSamples fadeTime samplerate <
        (rawSweep fStart fEnd (duration : ℝ) (numSamples duration samplerate)).length
  · rw [applyFade_getElem_pos _ _ hcond n] at hx
    cases hr : (rawSweep fStart fEnd (duration : ℝ) (numSamples duration samplerate))[n]? with
    | none => rw [hr] at hx; cases hx
    | some y =>
        rw [hr] at hx
        simp only [Option.map_some', Option.some.injEq] at hx
        have hxy := hx
        have hnlt : n < (rawSweep fStart fEnd (duration : ℝ)
            (numSamples duration samplerate)).length := by
          by_contra hge
          rw [List.getElem?_eq_none (by omega)] at hr
          cases hr
        have hg : 0 ≤ (fadeGain (fadeSamples fadeTime samplerate)
              (rawSweep fStart fEnd (duration : ℝ) (numSamples duration samplerate)).length n : ℝ) ∧
            (fadeGain (fadeSamples fadeTime samplerate)
              (rawSweep fStart fEnd (duration : ℝ) (numSamples duration samplerate)).length n : ℝ) ≤ 1 :=
          fadeGain_bounds _ _ _ hnlt
        have hy := rawSweep_bounded _ _ _ _ n y hr
        rw [← hxy]
        have hlo := mul_le_mul_of_nonneg_right hy.1 hg.1
        have hhi := mul_le_mul_of_nonneg_right hy.2 hg.1
        constructor
        · have : -(1 : ℝ) * fadeGain (fadeSamples fadeTime samplerate)
              (rawSweep fStart fEnd (duration : ℝ) (numSamples duration samplerate)).length n =
              -(fadeGain (fadeSamples fadeTime samplerate)
              (rawSweep fStart fEnd (duration : ℝ) (numSamples duration samplerate)).length n) := by
            ring
          rw [this] at hlo
          linarith [hg.2]
        · rw [one_mul] at hhi
          linarith [hg.2]
  · rw [applyFade_of_not _ _ hcond] at hx
    exact rawSweep_bounded _ _ _ _ n x hx

/-- Witness for `C7_sweep_range`: the single sample of
`generate_exponential_sweep 1 2 1 1 0` is in `[-1, 1]`. -/
theorem C7_sweep_range_witness :
    -1 ≤ Real.sin (sweepPhase 1 2 ((1 : ℚ) : ℝ)
        (((0 : ℕ) : ℝ) * ((1 : ℚ) : ℝ) / ((numSamples 1 1 : ℕ) : ℝ)))
    ∧ Real.sin (sweepPhase 1 2 ((1 : ℚ) : ℝ)
        (((0 : ℕ) : ℝ) * ((1 : ℚ) : ℝ) / ((numSamples 1 1 : ℕ) : ℝ))) ≤ 1 :=
  C7_sweep_range 1 2 1 1 0 (by norm_num) (by norm_num) 0 _ (by
    have h0 : fadeSamples (0 : ℚ) 1 = 0 := by norm_num [fadeSamples, pyInt]
    have hno : ¬ (0 < fadeSamples (0 : ℚ) 1 ∧ 2 * fadeSamples (0 : ℚ) 1 <
        (rawSweep 1 2 ((1 : ℚ) : ℝ) (numSamples 1 1)).length) := by
      rw [h0]
      simp
    show (generate_exponential_sweep 1 2 1 1 0)[0]? = _
    unfold generate_exponential_sweep
    rw [applyFade_of_not _ _ hno]
    exact rawSweep_getElem 1 2 _ _ 0 (by norm_num [numSamples, pyInt] <;> decide))

/-- C4: in `generate_bandlimited_noise`, whenever the filtered (and faded)
signal handed to the normalization step is non-silent, the returned buffer
has peak absolute amplitude exactly `0.9`; when that peak is exactly zero the
normalization is silently skipped and the buffer is returned unchanged. -/
theorem C4_noise_normalization (sosfilt : List ℚ → List ℚ) (noise : List ℚ)
    (fadeTime samplerate : ℚ) :
    (0 < peak (applyFade (sosfilt noise) (fadeSamples fadeTime samplerate)) →
       peak (generate_bandlimited_noise sosfilt noise fadeTime samplerate) = 9 / 10)
    ∧ (peak (applyFade (sosfilt noise) (fadeSamples fadeTime samplerate)) = 0 →
       generate_bandlimited_noise sosfilt noise fadeTime samplerate =
         applyFade (sosfilt noise) (fadeSamples fadeTime samplerate)) := by
  constructor
  · intro h
    unfold generate_bandlimited_noise
    exact peakNormalize_peak_pos _ h
  · intro h
    unfold generate_bandlimited_noise peakNormalize
    rw [h]
    rw [if_neg (lt_irrefl 0)]

/-- Witness for `C4_noise_normalization`: identity filter, noise `[1/2]`,
no fade; the returned peak is `9/10`. -/
theorem C4_noise_normalization_witness :
    peak (generate_bandlimited_noise id [1/2] 0 1) = 9 / 10 :=
  (C4_noise_normalization id [1/2] 0 1).1 (by
    have h0 : fadeSamples (0 : ℚ) 1 = 0 := by norm_num [fadeSamples, pyInt]
    have happ : applyFade (id [(1 : ℚ)/2]) (0 : ℕ) = [(1 : ℚ)/2] := by
      rw [applyFade_of_not _ _ (by simp)]
      rfl
    rw [h0, happ]
    norm_num [peak])

/-- C5 (counterexample): the claim says fades are skipped exactly when the
combined fade length exceeds the buffer length; with `fade_samples = 2` on a
4-sample all-ones buffer the combined length `4` does not exceed the buffer,
yet the code skips the fade (the buffer comes back unchanged, where an
applied fade would zero its first and last samples). -/
theorem C5_fade_skip_cex :
    applyFade ([1, 1, 1, 1] : List ℚ) 2 = [1, 1, 1, 1]
    ∧ ¬ (2 * 2 > ([1, 1, 1, 1] : List ℚ).length) := by
  constructor
  · decide
  · decide

/-- C5 (amended): both generators share one fade policy, applied exactly when
`fade_samples > 0` and `2*fade_samples <` buffer length (so it is also
skipped when the combined fade length equals the buffer length exactly).
When applied, the first returned sample is exactly zero; the last is exactly
zero provided `fade_samples ≥ 2` (a one-sample fade-out ramp is the single
value 1); and the sample at index `fade_samples` keeps its pre-fade value.
For the sweep this holds of the returned buffer; for the noise generator it
holds of the faded buffer before peak-normalization. -/
theorem C5_fade_amended :
    (∀ (fStart fEnd : ℝ) (duration samplerate fadeTime : ℚ),
        fadeSamples fadeTime samplerate = 0 ∨
          numSamples duration samplerate ≤ 2 * fadeSamples fadeTime samplerate →
        generate_exponential_sweep fStart fEnd duration samplerate fadeTime =
          rawSweep fStart fEnd (duration : ℝ) (numSamples duration samplerate))
    ∧ (∀ (fStart fEnd : ℝ) (duration samplerate fadeTime : ℚ),
        0 < fadeSamples fadeTime samplerate →
        2 * fadeSamples fadeTime samplerate < numSamples duration samplerate →
          (generate_exponential_sweep fStart fEnd duration samplerate fadeTime)[0]? =
            some 0
          ∧ (2 ≤ fadeSamples fadeTime samplerate →
              (generate_exponential_sweep fStart fEnd duration samplerate fadeTime)[
                numSamples duration samplerate - 1]? = some 0)
          ∧ (generate_exponential_sweep fStart fEnd duration samplerate fadeTime)[
                fadeSamples fadeTime samplerate]? =
              (rawSweep fStart fEnd (duration : ℝ) (numSamples duration samplerate))[
                fadeSamples fadeTime samplerate]?)
    ∧ (∀ (ys : List ℚ) (fs : ℕ), fs = 0 ∨ ys.length ≤ 2 * fs → applyFade ys fs = ys)
    ∧ (∀ (ys : List ℚ) (fs : ℕ), 0 < fs → 2 * fs < ys.length →
          (applyFade ys fs)[0]? = some 0
          ∧ (2 ≤ fs → (applyFade ys fs)[ys.length - 1]? = some 0)
          ∧ (applyFade ys fs)[fs]? = ys[fs]?) := by
  refine ⟨?_, ?_, ?_, ?_⟩
  · intro fS fE d sr ft h
    unfold generate_exponential_sweep
    exact applyFade_of_not _ _ (by rw [rawSweep_length]; omega)
  · intro fS fE d sr ft h0 h2
    refine ⟨?_, ?_, ?_⟩
    · unfold generate_exponential_sweep
      exact applyFade_first _ _ h0 (by rw [rawSweep_length]; omega)
    · intro h2fs
      unfold generate_exponential_sweep
      have hlast := applyFade_last (rawSweep fS fE (d : ℝ) (numSamples d sr))
        (fadeSamples ft sr) h2fs (by rw [rawSweep_length]; omega)
      rw [rawSweep_length] at hlast
      exact hlast
    · unfold generate_exponential_sweep
      exact applyFade_at_fs _ _ h0 (by rw [rawSweep_length]; omega)
  · intro ys fs h
    exact applyFade_of_not _ _ (by omega)
  · intro ys fs h0 h2
    exact ⟨applyFade_first _ _ h0 h2,
      fun h2fs => applyFade_last _ _ h2fs h2,
      applyFade_at_fs _ _ h0 h2⟩

/-- Witness for `C5_fade_amended`: a no-fade sweep call, a faded sweep call,
a no-fade buffer and a faded 5-sample buffer, at concrete inputs. -/
theorem C5_fade_amended_witness :
    generate_exponential_sweep 1 2 1 4 0 = rawSweep 1 2 ((1 : ℚ) : ℝ) (numSamples 1 4)
    ∧ (generate_exponential_sweep 1 2 1 8 (1/4))[0]? = some 0
    ∧ applyFade ([1, 2, 3] : List ℚ) 0 = [1, 2, 3]
    ∧ (applyFade ([1, 2, 3, 4, 5] : List ℚ) 2)[2]? = ([1, 2, 3, 4, 5] : List ℚ)[2]? := by
  have hfs : fadeSamples (1/4 : ℚ) 8 = 2 := by
    norm_num [fadeSamples, pyInt] <;> decide
  have hns : numSamples (1 : ℚ) 8 = 8 := by
    norm_num [numSamples, pyInt] <;> decide
  refine ⟨?_, ?_, ?_, ?_⟩
  · exact C5_fade_amended.1 1 2 1 4 0 (Or.inl (by norm_num [fadeSamples, pyInt]))
  · exact (C5_fade_amended.2.1 1 2 1 8 (1/4) (by rw [hfs]; decide)
      (by rw [hfs, hns]; decide)).1
  · exact C5_fade_amended.2.2.1 [1, 2, 3] 0 (Or.inl rfl)
  · exact (C5_fade_amended.2.2.2 [1, 2, 3, 4, 5] 2 (by decide) (by decide)).2.2

theorem stdoutLines_append (a b : List VisEvent) :
    stdoutLines (a ++ b) = stdoutLines a ++ stdoutLines b := by
  unfold stdoutLines
  rw [List.filterMap_append]

/-- C8 (counterexample): the claim says a `ValueError` is raised if and only
if the requested count exceeds the number of regular files; requesting `-1`
files from a folder with one file does not exceed the available count, yet
the call still raises (from `random.sample`'s own guard). -/
theorem C8_error_iff_cex :
    raisesError (select_random_files [("a", true)] id (-1)) = true
    ∧ ¬ ((-1 : ℤ) >
        ((([(("a" : String), true)].filter fun e => e.2).map fun e => e.1).length : ℤ)) := by
  constructor
  · decide
  · decide

/-- C8 (amended): `select_random_files` raises a `ValueError` if and only if
the requested count exceeds the number of regular files in the folder or is
negative (the function's own check catches the former with its message, and
`random.sample` rejects the latter); otherwise a value is returned. -/
theorem C8_error_iff_amended (entries : List (String × Bool))
    (shuffle : List String → List String) (k : ℤ) :
    raisesError (select_random_files entries shuffle k) = true ↔
      ((((entries.filter fun e => e.2).map fun e => e.1).length : ℤ) < k ∨ k < 0) := by
  simp only [select_random_files]
  split
  · rename_i h1
    simp only [raisesError, true_iff]
    omega
  · rename_i h1
    split
    · rename_i h2
      simp only [raisesError, Bool.false_eq_true, false_iff]
      omega
    · rename_i h2
      simp only [raisesError, true_iff]
      omega

/-- C10: whenever `select_random_files` returns normally it returns exactly
`number_of_files` pairwise-distinct names, each naming a regular file of the
given folder.  The hypotheses record the library guarantees the code relies
on: `random.sample` draws from the population (a rearrangement, of which a
prefix is taken) and `os.listdir` yields pairwise-distinct entry names. -/
theorem C10_ok_spec (entries : List (String × Bool))
    (shuffle : List String → List String) (k : ℤ)
    (hshuffle : ∀ l : List String, (shuffle l).Perm l)
    (hnodup : (entries.map fun e => e.1).Nodup)
    (res : List String)
    (hres : select_random_files entries shuffle k = Except.ok res) :
    (res.length : ℤ) = k ∧ res.Nodup ∧
      ∀ name ∈ res, ∃ e ∈ entries, e.2 = true ∧ e.1 = name := by
  simp only [select_random_files] at hres
  split at hres
  · cases hres
  · rename_i h1
    split at hres
    · rename_i h2
      injection hres with hr
      subst hr
      have hperm := hshuffle ((entries.filter fun e => e.2).map fun e => e.1)
      have hlen := hperm.length_eq
      have hkle : k.toNat ≤ ((entries.filter fun e => e.2).map fun e => e.1).length := by
        omega
      refine ⟨?_, ?_, ?_⟩
      · rw [List.length_take, hlen, min_eq_left hkle]
        omega
      · have hXnodup : ((entries.filter fun e => e.2).map fun e => e.1).Nodup := by
          apply List.Nodup.sublist _ hnodup
          exact List.Sublist.map _ (List.filter_sublist _)
        have hshufnodup := (hperm.symm).nodup hXnodup
        exact List.Nodup.sublist (List.take_sublist _ _) hshufnodup
      · intro name hname
        have hmem1 : name ∈ shuffle ((entries.filter fun e => e.2).map fun e => e.1) :=
          List.mem_of_mem_take hname
        have hmem2 := hperm.mem_iff.mp hmem1
        obtain ⟨e, he, heq⟩ := List.mem_map.mp hmem2
        have hef := List.mem_filter.mp he
        refine ⟨e, hef.1, ?_, heq⟩
        simpa using hef.2
    · cases hres

/-- Witness for `C10_ok_spec`: one regular file and one directory entry,
identity shuffle, one file requested. -/
theorem C10_ok_spec_witness :
    (((["a"] : List String).length : ℤ) = 1 ∧ (["a"] : List String).Nodup ∧
      ∀ name ∈ (["a"] : List String),
        ∃ e ∈ ([("a", true), ("b", false)] : List (String × Bool)),
          e.2 = true ∧ e.1 = name) :=
  C10_ok_spec [("a", true), ("b", false)] id 1
    (fun l => List.Perm.refl l) (by decide) ["a"] (by rfl)

/-- C9 (counterexample): for the loaded buffer `[1, -1, 1]` (two sign
changes) the active visualizer prints nothing at all to standard output —
in particular no `Zero-crossing rate: 2` line — because the zero-crossing
computation and its print statement are commented out. -/
theorem C9_no_print_cex :
    stdoutLines (visualizeAll [[(1 : ℚ), -1, 1]]) = []
    ∧ "Zero-crossing rate: 2" ∉ stdoutLines (visualizeAll [[(1 : ℚ), -1, 1]]) := by
  constructor
  · decide
  · decide

/-- C9 (amended): the active code of the visualizer writes no line to
standard output for any list of loaded buffers: the zero-crossing count and
its `Zero-crossing rate:` print exist only as commented-out (disabled)
code. -/
theorem C9_stdout_empty (ys : List (List ℚ)) :
    stdoutLines (visualizeAll ys) = [] := by
  induction ys with
  | nil => rfl
  | cons y ys ih =>
      have hcons : visualizeAll (y :: ys) = visualizeFile y ++ visualizeAll ys := by
        simp [visualizeAll]
      rw [hcons, stdoutLines_append, ih]
      rfl
